import Mathlib

/-!
Verification development for the `rsds` fixed-capacity deque
(`src/deque.rs`, `struct Deque<T>` with fields `data : Vec<Option<T>>`,
`count : usize`, `tail : usize`).

The embedding is shallow: `Vec<Option<T>>` becomes `List (Option T)` whose
length is the vector's capacity (`new` fills exactly `capacity` slots with
`None`, and every later write is `Vec`-index assignment, which preserves the
length), `usize` values become `Nat` (all arithmetic in the source is
`(a + capacity - b) % capacity` with `b ≤ a + capacity` in every reachable
state, so truncated `Nat` subtraction agrees with `usize`), and each `&mut
self` method becomes a function from the state to a result/state pair.
-/

namespace Rsds

/-- Result of a push: `Ok(())` or `Err(DequeFullError)` in the source. -/
inductive PushResult where
  | ok
  | full
deriving DecidableEq, Repr

/-- State of `Deque<T>`: `data: Vec<Option<T>>`, `count: usize`, `tail: usize`. -/
structure Deque (T : Type) where
  data : List (Option T)
  count : Nat
  tail : Nat
deriving DecidableEq, Repr

namespace Deque

/-- The source reads `self.data.capacity()`; `new` makes `len == capacity` and
every subsequent write keeps the length, so capacity is the list length. -/
def capacity (s : Deque T) : Nat := s.data.length

/-- Source `Deque::new(size)`: a vector of `size` slots all `None`,
`count = 0`, `tail = 0`. -/
def new (T : Type) (size : Nat) : Deque T :=
  { data := List.replicate size none, count := 0, tail := 0 }

/-- Source `Deque::push_front`: on full returns `Err(DequeFullError)` leaving
the state alone, otherwise stores at `(tail + capacity - count) % capacity`
and increments `count`. -/
def push_front (s : Deque T) (val : T) : PushResult × Deque T :=
  if s.count = s.capacity then
    (PushResult.full, s)
  else
    let head := (s.tail + s.capacity - s.count) % s.capacity
    (PushResult.ok, { s with data := s.data.set head (some val), count := s.count + 1 })

/-- Source `Deque::push_back`: on full returns `Err(DequeFullError)`, otherwise
moves `tail` to `(tail + capacity - 1) % capacity`, stores there and
increments `count`. -/
def push_back (s : Deque T) (val : T) : PushResult × Deque T :=
  if s.count = s.capacity then
    (PushResult.full, s)
  else
    let t := (s.tail + s.capacity - 1) % s.capacity
    (PushResult.ok, { data := s.data.set t (some val), count := s.count + 1, tail := t })

/-- Source `Deque::pop_front`: on empty returns `None`, otherwise reads and
clears slot `(tail + capacity - count) % capacity` and decrements `count`. -/
def pop_front (s : Deque T) : Option T × Deque T :=
  if s.count = 0 then
    (none, s)
  else
    let head := (s.tail + s.capacity - s.count) % s.capacity
    (s.data.getD head none,
      { s with data := s.data.set head none, count := s.count - 1 })

/-- Source `Deque::pop_back`: on empty returns `None`, otherwise reads and
clears slot `tail`, moves `tail` to `(tail + capacity - 1) % capacity` and
decrements `count`. -/
def pop_back (s : Deque T) : Option T × Deque T :=
  if s.count = 0 then
    (none, s)
  else
    (s.data.getD s.tail none,
      { data := s.data.set s.tail none,
        count := s.count - 1,
        tail := (s.tail + s.capacity - 1) % s.capacity })

/-- Source `Deque::peek_front`: `&None` on empty, otherwise the slot at
`(tail + capacity - count) % capacity` (which may itself hold `None`). -/
def peek_front (s : Deque T) : Option T :=
  if s.count = 0 then none
  else s.data.getD ((s.tail + s.capacity - s.count) % s.capacity) none

/-- Source `Deque::peek_back`: `&None` on empty, otherwise the slot at `tail`. -/
def peek_back (s : Deque T) : Option T :=
  if s.count = 0 then none else s.data.getD s.tail none

/-- Source `Deque::size`: returns `count`. -/
def size (s : Deque T) : Nat := s.count

/-- Slot index used by `push_front`, `pop_front` and `peek_front` when their
guard passes: `(tail + capacity - count) % capacity` in the source. -/
def frontIdx (s : Deque T) : Nat := (s.tail + s.capacity - s.count) % s.capacity

/-- Slot index written by `push_back` when its guard passes (the updated
`tail`): `(tail + capacity - 1) % capacity` in the source. -/
def backIdx (s : Deque T) : Nat := (s.tail + s.capacity - 1) % s.capacity

end Deque

open Deque

/-- The state after `new(5)` followed by `push_back(1)`, `push_back(2)`,
`push_back(3)`, `push_back(4)` (claim C1's pushes). -/
def c1_filled : Deque Nat :=
  ((((new Nat 5).push_back 1).2.push_back 2).2.push_back 3).2.push_back 4 |>.2

/-- The state after `new(5)` followed by `push_front(1)`, `push_front(2)`,
`push_front(3)`, `push_front(4)` (claim C3's pushes). -/
def c3_filled : Deque Nat :=
  ((((new Nat 5).push_front 1).2.push_front 2).2.push_front 3).2.push_front 4 |>.2

/-- The state after `new(5)` followed by `push_back(1)`, `push_back(2)`,
`push_front(0)` (claim C4's pushes). -/
def c4_filled : Deque Nat :=
  (((new Nat 5).push_back 1).2.push_back 2).2.push_front 0 |>.2

/-- C1: the four `push_back` calls do return `Ok`, but the four `pop_front`
calls return `Some 3`, `Some 2`, `Some 1`, `None` — not `1, 2, 3, 4` as the
spec states.  The pop head `(tail + capacity - count) % capacity` lands one
slot below the oldest element, so `pop_front` walks the buffer from the wrong
starting slot. -/
theorem c1_code_bug :
    (((new Nat 5).push_back 1).1 = PushResult.ok ∧
      (((new Nat 5).push_back 1).2.push_back 2).1 = PushResult.ok ∧
      ((((new Nat 5).push_back 1).2.push_back 2).2.push_back 3).1 = PushResult.ok ∧
      (((((new Nat 5).push_back 1).2.push_back 2).2.push_back 3).2.push_back 4).1
        = PushResult.ok) ∧
    c1_filled.pop_front.1 = some 3 ∧
    c1_filled.pop_front.2.pop_front.1 = some 2 ∧
    c1_filled.pop_front.2.pop_front.2.pop_front.1 = some 1 ∧
    c1_filled.pop_front.2.pop_front.2.pop_front.2.pop_front.1 = none := by
  decide

/-- C3: after `push_front(1)`, `push_front(2)`, `push_front(3)`,
`push_front(4)` on `new(5)`, the four `pop_front` calls return `None`,
`Some 4`, `Some 3`, `Some 2` — not `4, 3, 2, 1` as the spec states.
`push_front` stores at `(tail + capacity - count) % capacity` and then
increments `count`, so the very next `pop_front` computes a head one slot
below the value just stored and reads a vacant slot. -/
theorem c3_code_bug :
    c3_filled.pop_front.1 = none ∧
    c3_filled.pop_front.2.pop_front.1 = some 4 ∧
    c3_filled.pop_front.2.pop_front.2.pop_front.1 = some 3 ∧
    c3_filled.pop_front.2.pop_front.2.pop_front.2.pop_front.1 = some 2 := by
  decide

/-- The state after `new(5)` followed by `push_back(1)`, `push_front(2)`,
`push_back(3)`, `push_back(4)`, `push_back(5)` — five pushes on a capacity-5
deque, all of which return `Ok` (claim C2's pushes). -/
def c2_filled : Deque Nat :=
  (((((new Nat 5).push_back 1).2.push_front 2).2.push_back 3).2.push_back 4).2.push_back 5
    |>.2

/-- C2: filling `new(5)` with `push_back(1)`, `push_front(2)`, `push_back(3)`,
`push_back(4)`, `push_back(5)` (each returning `Ok`) and draining with five
`pop_front` calls gives `count == 0` but returns `Some 5`, `Some 4`, `Some 3`,
`Some 1`, `None`: the value `2` is lost.  `push_front(2)` stored `2` at slot
`(tail + capacity - count) % capacity = 3`, which is the slot the next
`push_back` moves `tail` onto, so `push_back(3)` overwrote it. -/
theorem c2_code_bug :
    ((new Nat 5).push_back 1).1 = PushResult.ok ∧
    (((new Nat 5).push_back 1).2.push_front 2).1 = PushResult.ok ∧
    ((((new Nat 5).push_back 1).2.push_front 2).2.push_back 3).1 = PushResult.ok ∧
    (((((new Nat 5).push_back 1).2.push_front 2).2.push_back 3).2.push_back 4).1
      = PushResult.ok ∧
    ((((((new Nat 5).push_back 1).2.push_front 2).2.push_back 3).2.push_back 4).2.push_back
        5).1 = PushResult.ok ∧
    c2_filled.pop_front.1 = some 5 ∧
    c2_filled.pop_front.2.pop_front.1 = some 4 ∧
    c2_filled.pop_front.2.pop_front.2.pop_front.1 = some 3 ∧
    c2_filled.pop_front.2.pop_front.2.pop_front.2.pop_front.1 = some 1 ∧
    c2_filled.pop_front.2.pop_front.2.pop_front.2.pop_front.2.pop_front.1 = none ∧
    c2_filled.pop_front.2.pop_front.2.pop_front.2.pop_front.2.pop_front.2.count = 0 := by
  decide

/-- C4: after `push_back(1)`, `push_back(2)`, `push_front(0)` on `new(5)`,
`pop_front()` returns `None` — not `Some 0` as the spec states (the
subsequent `pop_back()` does return `Some 2`).  `push_front` stored `0` at
slot 1, but `pop_front` reads slot 0. -/
theorem c4_code_bug :
    c4_filled.pop_front.1 = none ∧
    c4_filled.pop_front.2.pop_back.1 = some 2 := by
  decide

/-- Number of storage slots currently holding `Some`. -/
def occupiedCount (s : Deque T) : Nat := s.data.countP Option.isSome

/-- Membership in the circular run of slots the claim describes: the run
starts at `head_index = (tail + capacity - count) % capacity` and ends at
`tail` (inclusive), wrapping modulo `capacity`; its slots are
`(head_index + k) % capacity` for `0 ≤ k ≤ (tail + capacity - head_index) %
capacity`.  This predicate transcribes the claim's words (to be compared with
the code's actual slot occupancy), not any function of the source. -/
def inClaimedRun (s : Deque T) (i : Nat) : Bool :=
  (List.range ((s.tail + s.capacity - s.frontIdx) % s.capacity + 1)).any
    (fun k => (s.frontIdx + k) % s.capacity == i)

/-- The occupancy invariant claim C5 asserts of every reachable state:
exactly `count` slots hold `Some`, and a slot holds `Some` exactly when it
lies on the circular run from `head_index` to `tail` inclusive. -/
def claimedRunInvariant (s : Deque T) : Prop :=
  occupiedCount s = s.count ∧
  ∀ i < s.capacity, ((s.data.getD i none).isSome = true ↔ inClaimedRun s i = true)

instance (s : Deque Nat) : Decidable (claimedRunInvariant s) := by
  unfold claimedRunInvariant
  exact instDecidableAnd

/-- The state after `new(5)` followed by the single call `push_front(1)`. -/
def c5_single : Deque Nat := (new Nat 5).push_front 1 |>.2

/-- The state after `new(5)` followed by `push_back(1)`, `push_front(2)`,
`push_back(3)` — all three return `Ok`, so `count = 3`. -/
def c5_mixed : Deque Nat :=
  (((new Nat 5).push_back 1).2.push_front 2).2.push_back 3 |>.2

/-- C5: the claimed occupancy invariant already fails one operation away from
`new(5)`.  After the single `push_front(1)` the only occupied slot is index
0, tail is 0 and `head_index = (0 + 5 - 1) % 5 = 4`, so the claimed run
`{4, 0}` contains the vacant slot 4.  After `push_back(1)`, `push_front(2)`,
`push_back(3)` the state has `count = 3` but only 2 occupied slots, because
`push_back(3)` overwrote the slot holding `2`. -/
theorem c5_code_bug :
    ¬ claimedRunInvariant c5_single ∧
    c5_single.count = 1 ∧ occupiedCount c5_single = 1 ∧
    (c5_single.data.getD 4 none).isSome = false ∧ inClaimedRun c5_single 4 = true ∧
    c5_mixed.count = 3 ∧ occupiedCount c5_mixed = 2 := by
  decide

/-- Iterated `push_back`: the list of results in call order, and the final
state. -/
def push_back_seq (s : Deque T) : List T → List PushResult × Deque T
  | [] => ([], s)
  | v :: vs =>
    let r := s.push_back v
    let rest := push_back_seq r.2 vs
    (r.1 :: rest.1, rest.2)

lemma push_front_full_iff (s : Deque T) (v : T) :
    (s.push_front v).1 = PushResult.full ↔ s.count = s.capacity := by
  unfold Deque.push_front
  split <;> simp_all

lemma push_front_full_frame (s : Deque T) (v : T) (h : s.count = s.capacity) :
    (s.push_front v).2 = s := by
  unfold Deque.push_front
  simp [h]

lemma push_back_full_iff (s : Deque T) (v : T) :
    (s.push_back v).1 = PushResult.full ↔ s.count = s.capacity := by
  unfold Deque.push_back
  split <;> simp_all

lemma push_back_full_frame (s : Deque T) (v : T) (h : s.count = s.capacity) :
    (s.push_back v).2 = s := by
  unfold Deque.push_back
  simp [h]

lemma push_back_ok_count (s : Deque T) (v : T) (h : s.count ≠ s.capacity) :
    (s.push_back v).1 = PushResult.ok ∧ (s.push_back v).2.count = s.count + 1 := by
  unfold Deque.push_back
  simp [h]

lemma push_back_capacity (s : Deque T) (v : T) :
    (s.push_back v).2.capacity = s.capacity := by
  unfold Deque.push_back
  split <;> simp [Deque.capacity]

lemma pop_front_empty_frame (s : Deque T) (h : s.count = 0) :
    s.pop_front = (none, s) := by
  unfold Deque.pop_front
  simp [h]

lemma pop_back_empty_frame (s : Deque T) (h : s.count = 0) :
    s.pop_back = (none, s) := by
  unfold Deque.pop_back
  simp [h]

lemma push_back_seq_ok (vs : List T) (s : Deque T)
    (h : s.count + vs.length ≤ s.capacity) :
    (push_back_seq s vs).1 = List.replicate vs.length PushResult.ok ∧
    (push_back_seq s vs).2.count = s.count + vs.length ∧
    (push_back_seq s vs).2.capacity = s.capacity := by
  induction vs generalizing s with
  | nil => simp [push_back_seq]
  | cons v vs ih =>
    have hne : s.count ≠ s.capacity := by
      simp only [List.length_cons] at h
      omega
    obtain ⟨h1, h2⟩ := push_back_ok_count s v hne
    have hcap := push_back_capacity s v
    have ihh := ih (s.push_back v).2 (by
      rw [h2, hcap]
      simp only [List.length_cons] at h
      omega)
    refine ⟨?_, ?_, ?_⟩
    · simp [push_back_seq, h1, ihh.1, List.replicate_succ]
    · simp [push_back_seq, ihh.2.1, h2]
      omega
    · simp [push_back_seq, ihh.2.2, hcap]

/-- C6: `push_front` and `push_back` fail with `DequeFullError` exactly when
`count == capacity`, and a failing push leaves the state untouched; a fresh
deque of capacity `n` accepts any `n` consecutive `push_back` calls (all
`Ok`), after which `count = n` and one more `push_back` fails leaving the
state unchanged; `pop_front` and `pop_back` on an empty deque return `None`
with no mutation. -/
theorem c6_error_handling (T : Type) (s : Deque T) (v w : T) (vs : List T) :
    ((s.push_front v).1 = PushResult.full ↔ s.count = s.capacity) ∧
    ((s.push_front v).1 = PushResult.full → (s.push_front v).2 = s) ∧
    ((s.push_back v).1 = PushResult.full ↔ s.count = s.capacity) ∧
    ((s.push_back v).1 = PushResult.full → (s.push_back v).2 = s) ∧
    (s.count = 0 → s.pop_front = (none, s) ∧ s.pop_back = (none, s)) ∧
    (push_back_seq (new T vs.length) vs).1 = List.replicate vs.length PushResult.ok ∧
    (push_back_seq (new T vs.length) vs).2.count = vs.length ∧
    ((push_back_seq (new T vs.length) vs).2.push_back w).1 = PushResult.full ∧
    ((push_back_seq (new T vs.length) vs).2.push_back w).2
      = (push_back_seq (new T vs.length) vs).2 := by
  have hnew : (new T vs.length).capacity = vs.length := by
    simp [Deque.new, Deque.capacity]
  have hseq := push_back_seq_ok vs (new T vs.length) (by simp [Deque.new, Deque.capacity])
  have hcount : (push_back_seq (new T vs.length) vs).2.count = vs.length := by
    have := hseq.2.1
    simpa [Deque.new] using this
  have hfullstate : (push_back_seq (new T vs.length) vs).2.count
      = (push_back_seq (new T vs.length) vs).2.capacity := by
    rw [hcount, hseq.2.2, hnew]
  refine ⟨push_front_full_iff s v,
    fun h => push_front_full_frame s v ((push_front_full_iff s v).mp h),
    push_back_full_iff s v,
    fun h => push_back_full_frame s v ((push_back_full_iff s v).mp h),
    fun h => ⟨pop_front_empty_frame s h, pop_back_empty_frame s h⟩,
    hseq.1, hcount,
    (push_back_full_iff _ w).mpr hfullstate,
    push_back_full_frame _ w hfullstate⟩

/-- Witness for C6 at capacity 2 with pushes `[4, 5]` and at an
already-full deque (`new(0)` is full from the start). -/
theorem c6_witness :
    ((new Nat 0).push_front 1).1 = PushResult.full ∧
    ((new Nat 0).push_front 1).2 = new Nat 0 ∧
    (push_back_seq (new Nat 2) [4, 5]).1 = List.replicate 2 PushResult.ok ∧
    ((push_back_seq (new Nat 2) [4, 5]).2.push_back 9).1 = PushResult.full := by
  have h := c6_error_handling Nat (new Nat 0) 1 9 [4, 5]
  exact ⟨h.1.mpr rfl, h.2.1 (h.1.mpr rfl), h.2.2.2.2.2.1, h.2.2.2.2.2.2.2.1⟩

/-- The state after `new(5)` followed by the single call `push_front(1)`:
`count = 1` yet the slot `peek_front` reads (index 4) is vacant. -/
def c7_state : Deque Nat := (new Nat 5).push_front 1 |>.2

/-- C7 counterexample: the claim says `peek_front` returns the empty result
exactly when `count == 0`, but after `push_front(1)` on `new(5)` the deque
has `count = 1` and `peek_front` returns `None` (`push_front` stored at slot
0 while the peek head formula yields slot 4). -/
theorem c7_counterexample :
    c7_state.count ≠ 0 ∧ c7_state.peek_front = none := by
  decide

/-- C7 amended: `peek_front` and `peek_back` are non-mutating (they take the
state by shared reference and are embedded as pure functions of it), they
return the empty result whenever `count == 0`, and they always return exactly
the value the corresponding pop would return: peek and pop compute the same
slot index from the same state. -/
theorem c7_peek (T : Type) (s : Deque T) :
    (s.count = 0 → s.peek_front = none ∧ s.peek_back = none) ∧
    s.peek_front = s.pop_front.1 ∧
    s.peek_back = s.pop_back.1 := by
  unfold Deque.peek_front Deque.peek_back Deque.pop_front Deque.pop_back
  refine ⟨fun h => by simp [h], ?_, ?_⟩ <;> split <;> rfl

/-- Witness for C7 on the empty deque `new(5)` and on `c7_state`. -/
theorem c7_witness :
    Deque.peek_front (new Nat 5) = none ∧
    c7_state.peek_front = c7_state.pop_front.1 :=
  ⟨((c7_peek Nat (new Nat 5)).1 rfl).1, (c7_peek Nat c7_state).2.1⟩

lemma push_front_frame (s : Deque T) (v : T) (j : Nat) (h : j ≠ s.frontIdx) :
    ((s.push_front v).2.data)[j]? = s.data[j]? ∧ (s.push_front v).2.tail = s.tail := by
  unfold Deque.push_front
  split
  · exact ⟨rfl, rfl⟩
  · exact ⟨List.getElem?_set_ne fun e => h e.symm, rfl⟩

lemma push_back_frame (s : Deque T) (v : T) (j : Nat) (h : j ≠ s.backIdx) :
    ((s.push_back v).2.data)[j]? = s.data[j]? := by
  unfold Deque.push_back
  split
  · rfl
  · exact List.getElem?_set_ne fun e => h e.symm

lemma pop_front_frame (s : Deque T) (j : Nat) (h : j ≠ s.frontIdx) :
    (s.pop_front.2.data)[j]? = s.data[j]? ∧ s.pop_front.2.tail = s.tail := by
  unfold Deque.pop_front
  split
  · exact ⟨rfl, rfl⟩
  · exact ⟨List.getElem?_set_ne fun e => h e.symm, rfl⟩

lemma pop_back_frame (s : Deque T) (j : Nat) (h : j ≠ s.tail) :
    (s.pop_back.2.data)[j]? = s.data[j]? := by
  unfold Deque.pop_back
  split
  · rfl
  · exact List.getElem?_set_ne fun e => h e.symm

lemma push_front_tail (s : Deque T) (v : T) : (s.push_front v).2.tail = s.tail := by
  unfold Deque.push_front
  split <;> rfl

lemma pop_front_tail (s : Deque T) : s.pop_front.2.tail = s.tail := by
  unfold Deque.pop_front
  split <;> rfl

/-- C10: each operation writes at most one storage slot — `push_front` and
`pop_front` touch only slot `(tail + capacity - count) % capacity`
(`frontIdx`), `push_back` only the updated tail slot
`(tail + capacity - 1) % capacity` (`backIdx`), `pop_back` only slot `tail`;
every other slot keeps its previous content, and `push_front`/`pop_front`
leave the `tail` field unchanged. -/
theorem c10_frame (T : Type) (s : Deque T) (v : T) (j : Nat) :
    (j ≠ s.frontIdx → ((s.push_front v).2.data)[j]? = s.data[j]?) ∧
    (s.push_front v).2.tail = s.tail ∧
    (j ≠ s.backIdx → ((s.push_back v).2.data)[j]? = s.data[j]?) ∧
    (j ≠ s.frontIdx → (s.pop_front.2.data)[j]? = s.data[j]?) ∧
    s.pop_front.2.tail = s.tail ∧
    (j ≠ s.tail → (s.pop_back.2.data)[j]? = s.data[j]?) :=
  ⟨fun h => (push_front_frame s v j h).1,
   push_front_tail s v,
   fun h => push_back_frame s v j h,
   fun h => (pop_front_frame s j h).1,
   pop_front_tail s,
   fun h => pop_back_frame s j h⟩

/-- Witness for C10 at slot 2 of `new(5)`, which differs from `frontIdx = 0`,
`backIdx = 4` and `tail = 0`. -/
theorem c10_witness :
    (((new Nat 5).push_front 7).2.data)[2]? = ((new Nat 5).data)[2]? ∧
    (((new Nat 5).push_back 7).2.data)[2]? = ((new Nat 5).data)[2]? ∧
    ((new Nat 5).pop_back.2.data)[2]? = ((new Nat 5).data)[2]? :=
  ⟨(c10_frame Nat (new Nat 5) 7 2).1 (by decide),
   (c10_frame Nat (new Nat 5) 7 2).2.2.1 (by decide),
   (c10_frame Nat (new Nat 5) 7 2).2.2.2.2.2 (by decide)⟩

/-- One call of the mutating public API, with its argument. -/
inductive Op (T : Type) where
  | pushF (v : T)
  | pushB (v : T)
  | popF
  | popB

/-- State after one call (the call's returned value is dropped). -/
def applyOp (s : Deque T) : Op T → Deque T
  | Op.pushF v => (s.push_front v).2
  | Op.pushB v => (s.push_back v).2
  | Op.popF => s.pop_front.2
  | Op.popB => s.pop_back.2

/-- State after a sequence of calls, first call first. -/
def runOps (s : Deque T) : List (Op T) → Deque T
  | [] => s
  | op :: ops => runOps (applyOp s op) ops

/-- States reachable from `new(cap)` through the public API. -/
def Reachable (cap : Nat) (s : Deque T) : Prop :=
  ∃ ops : List (Op T), s = runOps (new T cap) ops

/-- Structural invariant maintained by every operation: the storage length
never changes, `count` never exceeds it, and `tail` stays in range (`tail`
is 0 until first updated, and every update stores a value reduced modulo the
capacity). -/
def Inv (cap : Nat) (s : Deque T) : Prop :=
  s.data.length = cap ∧ s.count ≤ cap ∧ (s.tail = 0 ∨ s.tail < cap)

lemma inv_new (T : Type) (cap : Nat) : Inv cap (new T cap) := by
  simp [Inv, Deque.new]

lemma inv_apply (cap : Nat) (s : Deque T) (op : Op T) (h : Inv cap s) :
    Inv cap (applyOp s op) := by
  obtain ⟨hlen, hcount, htail⟩ := h
  have hcap : s.capacity = cap := hlen
  cases op with
  | pushF v =>
    simp only [applyOp]
    unfold Deque.push_front
    split
    · exact ⟨hlen, hcount, htail⟩
    · refine ⟨by simpa using hlen, by simp; omega, by simpa using htail⟩
  | pushB v =>
    simp only [applyOp]
    unfold Deque.push_back
    split
    · exact ⟨hlen, hcount, htail⟩
    · have hpos : 0 < cap := by omega
      refine ⟨by simpa using hlen, by simp; omega, Or.inr ?_⟩
      simpa [hcap] using Nat.mod_lt (s.tail + cap - 1) hpos
  | popF =>
    simp only [applyOp]
    unfold Deque.pop_front
    split
    · exact ⟨hlen, hcount, htail⟩
    · refine ⟨by simpa using hlen, by simp; omega, by simpa using htail⟩
  | popB =>
    simp only [applyOp]
    unfold Deque.pop_back
    split
    · exact ⟨hlen, hcount, htail⟩
    · have hpos : 0 < cap := by omega
      refine ⟨by simpa using hlen, by simp; omega, Or.inr ?_⟩
      simpa [hcap] using Nat.mod_lt (s.tail + cap - 1) hpos


lemma inv_runOps (cap : Nat) (ops : List (Op T)) (s : Deque T) (h : Inv cap s) :
    Inv cap (runOps s ops) := by
  induction ops generalizing s with
  | nil => exact h
  | cons op ops ih => exact ih (applyOp s op) (inv_apply cap s op h)

lemma reachable_inv (cap : Nat) (s : Deque T) (h : Reachable cap s) : Inv cap s := by
  obtain ⟨ops, rfl⟩ := h
  exact inv_runOps cap ops (new T cap) (inv_new T cap)

/-- C8: in every state reachable through the API from `new(cap)`, the storage
still has exactly `cap` slots; whenever a push passes its fullness guard
(`count ≠ capacity`) the capacity is positive and both slot indices the
pushes compute are strictly below it, and whenever a pop or peek passes its
emptiness guard (`count ≠ 0`) the capacity is positive and both the front
index and `tail` are strictly below it — so every slot access is in bounds
and, when `cap = 0`, every operation returns at its guard before any
`% capacity` is evaluated. -/
theorem c8_safety (T : Type) (cap : Nat) (s : Deque T) (h : Reachable cap s) :
    s.data.length = cap ∧
    (s.count ≠ s.capacity → 0 < cap ∧ s.frontIdx < cap ∧ s.backIdx < cap) ∧
    (s.count ≠ 0 → 0 < cap ∧ s.frontIdx < cap ∧ s.tail < cap) := by
  obtain ⟨hlen, hcount, htail⟩ := reachable_inv cap s h
  have hcap : s.capacity = cap := hlen
  refine ⟨hlen, fun hne => ?_, fun hne => ?_⟩
  · have hpos : 0 < cap := by omega
    exact ⟨hpos, by simpa [Deque.frontIdx, hcap] using Nat.mod_lt _ hpos,
      by simpa [Deque.backIdx, hcap] using Nat.mod_lt _ hpos⟩
  · have hpos : 0 < cap := by omega
    exact ⟨hpos, by simpa [Deque.frontIdx, hcap] using Nat.mod_lt _ hpos, by omega⟩

/-- Witness for C8 at the reachable state `new(5)` after one `push_back(1)`. -/
theorem c8_witness :
    (((new Nat 5).push_back 1).2.data.length = 5) ∧
    Deque.frontIdx ((new Nat 5).push_back 1).2 < 5 ∧
    ((new Nat 5).push_back 1).2.tail < 5 := by
  have h := c8_safety Nat 5 ((new Nat 5).push_back 1).2 ⟨[Op.pushB 1], rfl⟩
  exact ⟨h.1, (h.2.2 (by decide)).2.1, (h.2.2 (by decide)).2.2⟩

/-- C9: starting from `new(0)` the state never changes under any sequence of
API calls, every push fails with `DequeFullError`, every pop returns `None`
without mutation, both peeks return `None`, and `size()` is 0. -/
theorem c9_zero_capacity (T : Type) (ops : List (Op T)) (v : T) :
    runOps (new T 0) ops = new T 0 ∧
    ((runOps (new T 0) ops).push_front v).1 = PushResult.full ∧
    ((runOps (new T 0) ops).push_back v).1 = PushResult.full ∧
    (runOps (new T 0) ops).pop_front = (none, runOps (new T 0) ops) ∧
    (runOps (new T 0) ops).pop_back = (none, runOps (new T 0) ops) ∧
    (runOps (new T 0) ops).peek_front = none ∧
    (runOps (new T 0) ops).peek_back = none ∧
    (runOps (new T 0) ops).size = 0 := by
  have happly : ∀ op : Op T, applyOp (new T 0) op = new T 0 := by
    intro op
    cases op <;>
      simp [applyOp, Deque.push_front, Deque.push_back, Deque.pop_front,
        Deque.pop_back, Deque.new, Deque.capacity]
  have hrun : runOps (new T 0) ops = new T 0 := by
    induction ops with
    | nil => rfl
    | cons op ops ih => rw [runOps, happly op]; exact ih
  rw [hrun]
  refine ⟨rfl, ?_, ?_, ?_, ?_, rfl, rfl, rfl⟩
  · simp [Deque.push_front, Deque.new, Deque.capacity]
  · simp [Deque.push_back, Deque.new, Deque.capacity]
  · exact pop_front_empty_frame _ rfl
  · exact pop_back_empty_frame _ rfl

end Rsds
